import Mathlib

/-!
A shallow embedding of `react-lazy-image` (src/source/index.js and
src/source/read-blob-file.js): a viewport-aware image loader component.

Numbers that are JavaScript `number`s in the source are modelled as exact
rationals (`ℚ`), together with an explicit `JsNum` type capturing the special
values `NaN` and the infinities that JavaScript division can produce
(`loaded * 100 / total` with `total = 0`), since `checkViewport` tests
`isNaN(this.amountLoaded)` explicitly.
-/

namespace LazyImage

/-- Result of a JavaScript arithmetic expression that may be `NaN` or infinite. -/
inductive JsNum where
  | nan : JsNum
  | posInf : JsNum
  | negInf : JsNum
  | val : ℚ → JsNum
  deriving DecidableEq

/-- JavaScript division `a / b` on exact values: division by zero yields
`NaN` when the numerator is zero, otherwise a signed infinity. -/
def jsDiv (a b : ℚ) : JsNum :=
  if b = 0 then
    if a = 0 then .nan else if 0 < a then .posInf else .negInf
  else .val (a / b)

/-- JavaScript comparison `x < y` where `x` may be `NaN` or infinite:
`NaN < y` and `Infinity < y` are `false`, `-Infinity < y` is `true`. -/
def jsLt (x : JsNum) (y : ℚ) : Bool :=
  match x with
  | .nan => false
  | .posInf => false
  | .negInf => true
  | .val q => decide (q < y)

/-- JavaScript `isNaN`. -/
def jsIsNaN (x : JsNum) : Bool :=
  match x with
  | .nan => true
  | _ => false

/-- The component field `progress: { loaded, total }` (bytes). -/
structure Progress where
  loaded : ℚ
  total : ℚ
  deriving DecidableEq

/-- Getter `amountLoaded`: `(this.progress.loaded * 100) / this.progress.total`. -/
def amountLoaded (p : Progress) : JsNum :=
  jsDiv (p.loaded * 100) p.total

/-- Record `RectType` returned by `getBoundingClientRect`. -/
structure Rect where
  bottom : ℚ
  height : ℚ
  left : ℚ
  right : ℚ
  top : ℚ
  width : ℚ
  deriving DecidableEq

/-- Getter `isInViewport`: the expanded-rectangle intersection test
`rect.bottom >= (0 - offset) && rect.right >= (0 - offset) &&
 rect.top < (viewportHeight + offset) && rect.left < (viewportWidth + offset)`. -/
def isInViewport (rect : Rect) (viewportWidth viewportHeight offset : ℚ) : Bool :=
  decide (rect.bottom ≥ 0 - offset) &&
  decide (rect.right ≥ 0 - offset) &&
  decide (rect.top < viewportHeight + offset) &&
  decide (rect.left < viewportWidth + offset)

/-- The decision taken by one invocation of `checkViewport`: call
`this.fetch()`, call `this.request.abort()`, or do nothing (`return null`). -/
inductive ViewportAction where
  | start : ViewportAction
  | abortRequest : ViewportAction
  | noop : ViewportAction
  deriving DecidableEq

/-- Method `checkViewport`: start fetching when in the (expanded) viewport and not
requesting; abort when out of the viewport, requesting, and
`this.amountLoaded < this.props.minLoaded || isNaN(this.amountLoaded)`. -/
def checkViewport (rect : Rect) (viewportWidth viewportHeight offset : ℚ)
    (isRequesting : Bool) (p : Progress) (minLoaded : ℚ) : ViewportAction :=
  if isInViewport rect viewportWidth viewportHeight offset && !isRequesting then
    .start
  else if !(isInViewport rect viewportWidth viewportHeight offset) && isRequesting then
    if jsLt (amountLoaded p) minLoaded || jsIsNaN (amountLoaded p) then
      .abortRequest
    else
      .noop
  else
    .noop

/-- The mutable state of a mounted `Image` component that the request handlers
touch: `state.image` (the displayed base64 string), the `isRequesting` flag,
and the `progress` record. -/
structure ComponentState where
  image : String
  isRequesting : Bool
  progress : Progress
  deriving DecidableEq

/-- The initial component state: `state.image = this.props.defaultSource`,
`isRequesting = false`, `progress = { loaded: 0, total: 1 }`. -/
def initState (defaultSource : String) : ComponentState :=
  { image := defaultSource, isRequesting := false, progress := { loaded := 0, total := 1 } }

/-- The settled result of the `readBlobFile` promise chained in
`handleLoadEnd`: either the base64 string or a rejection. -/
inductive ConvResult where
  | ok : String → ConvResult
  | err : String → ConvResult
  deriving DecidableEq

/-- One XHR event delivered to the component's handlers. `loadStart` and
`progressEvent` carry the `ProgressEvent` fields the handlers read
(`lengthComputable`, `total`, `loaded`); `loadEnd` carries the response
status together with the settled conversion result that `handleLoadEnd`
would observe when the status is in [200, 300). -/
inductive Event where
  | loadStart : Bool → ℚ → Event
  | progressEvent : Bool → ℚ → ℚ → Event
  | load : Event
  | loadEnd : ℕ → ConvResult → Event
  | error : Event
  | abortEvent : Event
  deriving DecidableEq

/-- The component-level callbacks (`this.props.onX`). -/
inductive Callback where
  | onLoadStart : Callback
  | onProgress : Callback
  | onLoad : Callback
  | onLoadEnd : Callback
  | onError : Callback
  | onAbort : Callback
  deriving DecidableEq

/-- One handler invocation: the updated component state together with the
props callbacks it emits, translated from `handleLoadStart`,
`handleProgress`, `handleLoad`, `handleLoadEnd`, `handleError` and
`handleAbort` in src/source/index.js. -/
def stepE (s : ComponentState) : Event → ComponentState × List Callback
  | .loadStart lc total =>
      ({ s with isRequesting := true,
                progress := if lc then { loaded := 0, total := total } else s.progress },
       [.onLoadStart])
  | .progressEvent lc loaded _total =>
      ({ s with progress := if lc then { s.progress with loaded := loaded } else s.progress },
       [.onProgress])
  | .load =>
      ({ s with isRequesting := false }, [.onLoad])
  | .loadEnd status conv =>
      if 200 ≤ status ∧ status < 300 then
        match conv with
        | .ok image => ({ s with image := image, isRequesting := false }, [.onLoadEnd])
        | .err _ => ({ s with isRequesting := false }, [.onError])
      else
        (s, [])
  | .error =>
      ({ s with isRequesting := false }, [.onError])
  | .abortEvent =>
      ({ s with isRequesting := false }, [.onAbort])

/-- The state-only part of a handler invocation. -/
def step (s : ComponentState) (e : Event) : ComponentState :=
  (stepE s e).1

/-- Run a sequence of XHR events through the handlers. -/
def run (es : List Event) (s : ComponentState) : ComponentState :=
  es.foldl step s

/-- The concatenation of all callbacks emitted while running a sequence of
XHR events through the handlers. -/
def emitted : List Event → ComponentState → List Callback
  | [], _ => []
  | e :: es, s => (stepE s e).2 ++ emitted es (step s e)

/-- The outcome of one transfer at the transport level: a completed
response (any status) together with the conversion result `handleLoadEnd`
would observe, a transport error, or an abort. -/
inductive Outcome where
  | success : ℕ → ConvResult → Outcome
  | failure : Outcome
  | aborted : Outcome
  deriving DecidableEq

/-- The XHR events fired after the progress phase, in the order the XHR
specification delivers them: `load` then `loadend` on a completed response,
`error` then `loadend` (status 0) on a transport failure, `abort` then
`loadend` (status 0) on an abort. -/
def finalEvents : Outcome → List Event
  | .success status conv => [.load, .loadEnd status conv]
  | .failure => [.error, .loadEnd 0 (.err "")]
  | .aborted => [.abortEvent, .loadEnd 0 (.err "")]

/-- The full event sequence of one transfer: `loadstart`, then zero or more
`progress` events (each given by its `lengthComputable`, `loaded` and
`total` fields), then the outcome's final events. -/
def lifecycleEvents (lsLc : Bool) (lsTotal : ℚ) (ps : List (Bool × ℚ × ℚ))
    (o : Outcome) : List Event :=
  .loadStart lsLc lsTotal :: (ps.map fun p => .progressEvent p.1 p.2.1 p.2.2) ++ finalEvents o

/-- The lifecycle phase of the single XHR owned by the component: no
transfer started (or the previous one fully finished), transfer active,
or terminal transport event fired with the trailing `loadend` pending. -/
inductive Phase where
  | idle : Phase
  | active : Phase
  | done : Phase
  deriving DecidableEq

/-- The XHR event-ordering automaton: `loadstart` begins a transfer (the
component only calls `fetch` when it is not requesting), progress events
occur while active, exactly one of `load`/`error`/`abort` ends the active
phase, and the trailing `loadend` returns the object to idle. -/
def phaseStep : Phase → Event → Option Phase
  | .idle, .loadStart _ _ => some .active
  | .active, .progressEvent _ _ _ => some .active
  | .active, .load => some .done
  | .active, .error => some .done
  | .active, .abortEvent => some .done
  | .done, .loadEnd _ _ => some .idle
  | _, _ => none

/-- Run the event-ordering automaton over a sequence; `none` means the
sequence is not a well-formed XHR event sequence. -/
def phaseRun : List Event → Phase → Option Phase
  | [], p => some p
  | e :: es, p =>
      match phaseStep p e with
      | some q => phaseRun es q
      | none => none

/-- The `ownProps` array of `get imgProps`: the prop names the component
consumes itself and does not forward to the rendered `img` element. -/
def ownProps : List String :=
  ["onLayout", "onError", "onLoad", "onLoadEnd", "onLoadStart", "onAbort", "onProgress",
   "resizeMode", "source", "defaultSource", "offset", "minLoaded"]

/-- JavaScript `Array.prototype.indexOf` on a list of strings: the index of
the first occurrence, or `-1` when the element is absent. -/
def jsIndexOf : List String → String → Int
  | [], _ => -1
  | a :: rest, x =>
      if a = x then 0
      else
        let r := jsIndexOf rest x
        if r = -1 then -1 else r + 1

/-- Getter `imgProps`: the component's props (modelled as an association
list) filtered by `ownProps.indexOf(propName) === -1`, preserving order as
the `reduce` over `Object.keys` does. -/
def imgProps (props : List (String × String)) : List (String × String) :=
  props.filter fun kv => decide (jsIndexOf ownProps kv.1 = -1)

/-- Modelled from the claim: the scenario reflected simultaneously in the
horizontal and the vertical direction about the viewport's centre, mapping
the point `(x, y)` to `(viewportWidth - x, viewportHeight - y)`, which
carries the viewport rectangle to itself and swaps the rect's edges. -/
def reflectRect (r : Rect) (viewportWidth viewportHeight : ℚ) : Rect :=
  { bottom := viewportHeight - r.top
    height := r.height
    left := viewportWidth - r.right
    right := viewportWidth - r.left
    top := viewportHeight - r.bottom
    width := r.width }

/-- The converted payload an event contributes to `state.image`: the base64
string of a `loadend` whose status is in [200, 300) and whose conversion
succeeded, and nothing otherwise. -/
def successPayload : Event → Option String
  | .loadEnd status (.ok image) => if 200 ≤ status ∧ status < 300 then some image else none
  | _ => none

/-- All converted payloads of successful full transfers in an event
sequence. -/
def successfulPayloads (es : List Event) : List String :=
  es.filterMap successPayload

/-! ## Helper lemmas -/

theorem run_cons (e : Event) (es : List Event) (s : ComponentState) :
    run (e :: es) s = run es (step s e) := by
  simp [run]

theorem run_append (as bs : List Event) (s : ComponentState) :
    run (as ++ bs) s = run bs (run as s) := by
  simp [run, List.foldl_append]

theorem emitted_append (as bs : List Event) (s : ComponentState) :
    emitted (as ++ bs) s = emitted as s ++ emitted bs (run as s) := by
  induction as generalizing s with
  | nil => simp [emitted, run]
  | cons e as ih => simp [emitted, run_cons, ih, List.append_assoc]

theorem emitted_progressMap (ps : List (Bool × ℚ × ℚ)) (s : ComponentState) :
    emitted (ps.map fun p => Event.progressEvent p.1 p.2.1 p.2.2) s =
      List.replicate ps.length .onProgress := by
  induction ps generalizing s with
  | nil => simp [emitted]
  | cons p ps ih => simp [emitted, stepE, step, ih, List.replicate]

theorem run_progressMap_image (ps : List (Bool × ℚ × ℚ)) (s : ComponentState) :
    (run (ps.map fun p => Event.progressEvent p.1 p.2.1 p.2.2) s).image = s.image := by
  induction ps generalizing s with
  | nil => simp [run]
  | cons p ps ih => simp [run_cons, ih, step, stepE]

theorem run_progressMap_isRequesting (ps : List (Bool × ℚ × ℚ)) (s : ComponentState) :
    (run (ps.map fun p => Event.progressEvent p.1 p.2.1 p.2.2) s).isRequesting =
      s.isRequesting := by
  induction ps generalizing s with
  | nil => simp [run]
  | cons p ps ih => simp [run_cons, ih, step, stepE]

theorem stepE_loadEnd_snd (s : ComponentState) (status : ℕ) (conv : ConvResult) :
    (stepE s (.loadEnd status conv)).2 =
      if 200 ≤ status ∧ status < 300 then
        [match conv with | .ok _ => Callback.onLoadEnd | .err _ => Callback.onError]
      else [] := by
  by_cases h : 200 ≤ status ∧ status < 300 <;> cases conv <;> simp [stepE, h]

theorem emitted_finalEvents (o : Outcome) (s : ComponentState) :
    emitted (finalEvents o) s =
      match o with
      | .success status conv =>
          Callback.onLoad ::
            (if 200 ≤ status ∧ status < 300 then
              [match conv with | .ok _ => Callback.onLoadEnd | .err _ => Callback.onError]
            else [])
      | .failure => [Callback.onError]
      | .aborted => [Callback.onAbort] := by
  cases o with
  | success status conv =>
      by_cases h : 200 ≤ status ∧ status < 300 <;> cases conv <;>
        simp [finalEvents, emitted, step, stepE, h]
  | failure =>
      simp [finalEvents, emitted, step, stepE]
  | aborted =>
      simp [finalEvents, emitted, step, stepE]

theorem emitted_lifecycle (d : String) (lsLc : Bool) (lsTotal : ℚ)
    (ps : List (Bool × ℚ × ℚ)) (o : Outcome) :
    emitted (lifecycleEvents lsLc lsTotal ps o) (initState d) =
      Callback.onLoadStart :: (List.replicate ps.length .onProgress ++
        match o with
        | .success status conv =>
            Callback.onLoad ::
              (if 200 ≤ status ∧ status < 300 then
                [match conv with | .ok _ => Callback.onLoadEnd | .err _ => Callback.onError]
              else [])
        | .failure => [Callback.onError]
        | .aborted => [Callback.onAbort]) := by
  show emitted (.loadStart lsLc lsTotal ::
      ((ps.map fun p => Event.progressEvent p.1 p.2.1 p.2.2) ++ finalEvents o)) _ = _
  rw [show ∀ e es s, emitted (e :: es) s = (stepE s e).2 ++ emitted es (step s e)
        from fun _ _ _ => rfl]
  rw [emitted_append, emitted_progressMap, emitted_finalEvents]
  simp [stepE]

/-! ## C1 -/

/-- C1: each invocation of `checkViewport` starts a transfer exactly when the
element is inside the expanded viewport and no request is active, and aborts
exactly when the element is outside the expanded viewport, a request is
active, and the loaded percentage is below `minLoaded` or is undefined
(`NaN`); in every other combination the invocation neither starts nor
aborts. -/
theorem C1_checkViewport_decision (rect : Rect) (vw vh off : ℚ) (rq : Bool)
    (p : Progress) (m : ℚ) :
    (checkViewport rect vw vh off rq p m = .start ↔
      (isInViewport rect vw vh off = true ∧ rq = false)) ∧
    (checkViewport rect vw vh off rq p m = .abortRequest ↔
      (isInViewport rect vw vh off = false ∧ rq = true ∧
        (jsLt (amountLoaded p) m = true ∨ jsIsNaN (amountLoaded p) = true))) := by
  cases hiv : isInViewport rect vw vh off <;> cases rq <;>
    cases hlt : jsLt (amountLoaded p) m <;>
    cases hnan : jsIsNaN (amountLoaded p) <;>
    simp [checkViewport, hiv, hlt, hnan]

/-! ## C3 -/

/-- C3 fails on the code: the component's representation of an unknown total
is the sentinel `progress = {loaded: 0, total: 1}`, where `amountLoaded` is
the defined value 0, not `NaN` — so with `minLoaded = 0` an element 5000
pixels below an 800×600 viewport leaves the in-flight request running
(`0 < 0` is false and `isNaN(0)` is false), contradicting "aborted for every
minLoadedPercent in [0, 100]". -/
theorem C3_counterexample :
    checkViewport
        { bottom := 5010, height := 10, left := 0, right := 100, top := 5000, width := 100 }
        800 600 0 true { loaded := 0, total := 1 } 0 = .noop ∧
    checkViewport
        { bottom := 5010, height := 10, left := 0, right := 100, top := 5000, width := 100 }
        800 600 0 true { loaded := 0, total := 1 } 0 ≠ .abortRequest := by
  have hiv : isInViewport
      { bottom := 5010, height := 10, left := 0, right := 100, top := 5000, width := 100 }
      800 600 0 = false := by norm_num [isInViewport]
  have hal : amountLoaded { loaded := 0, total := 1 } = .val 0 := by
    norm_num [amountLoaded, jsDiv]
  constructor <;> simp [checkViewport, hiv, hal, jsLt, jsIsNaN]

/-- C3 (amended): when the element leaves the expanded viewport during an
in-flight request that still holds the unknown-total sentinel
`progress = {loaded: 0, total: 1}`, the computed percentage is the defined
value 0, and `checkViewport` aborts exactly when `minLoaded` is positive —
at `minLoaded = 0` the request continues. The percentage is genuinely
undefined (`NaN`) only in the state `loaded = 0 ∧ total = 0`, and there
`checkViewport` aborts for every `minLoaded`. -/
theorem C3_unknown_total_abort :
    (∀ (rect : Rect) (vw vh off m : ℚ), isInViewport rect vw vh off = false →
      0 ≤ m → m ≤ 100 →
      checkViewport rect vw vh off true { loaded := 0, total := 1 } m =
        (if 0 < m then .abortRequest else .noop)) ∧
    (∀ (rect : Rect) (vw vh off m : ℚ) (p : Progress),
      isInViewport rect vw vh off = false →
      jsIsNaN (amountLoaded p) = true →
      checkViewport rect vw vh off true p m = .abortRequest) := by
  constructor
  · intro rect vw vh off m hiv _ _
    have hal : amountLoaded { loaded := 0, total := 1 } = .val 0 := by
      norm_num [amountLoaded, jsDiv]
    by_cases hm : 0 < m <;> simp [checkViewport, hiv, hal, jsLt, jsIsNaN, hm]
  · intro rect vw vh off m p hiv hnan
    simp [checkViewport, hiv, hnan]

/-! ## C2 -/

/-- C2 fails on the code: in an aborted lifecycle the component emits
`onAbort` (the terminal callback) but never `onLoad`, because the XHR `load`
event — the only source of `props.onLoad` — does not fire on abort. -/
theorem C2_counterexample :
    (emitted (lifecycleEvents false 0 [] .aborted) (initState "d")).count Callback.onAbort = 1 ∧
    (emitted (lifecycleEvents false 0 [] .aborted) (initState "d")).count Callback.onLoad = 0 := by
  constructor <;> rfl

/-- C2 (amended): the callbacks of one transfer lifecycle are exactly
`onLoadStart`, one `onProgress` per progress event, and then: on a completed
response, `onLoad` followed — only when the status is in [200, 300) — by
exactly one of `onLoadEnd` (conversion succeeded) or `onError` (conversion
failed), and by nothing on a non-2xx status; on a transport error exactly
`onError` and no `onLoad`; on an abort exactly `onAbort` and no `onLoad`. -/
theorem C2_callback_exclusivity (d : String) (lsLc : Bool) (lsTotal : ℚ)
    (ps : List (Bool × ℚ × ℚ)) (o : Outcome) :
    emitted (lifecycleEvents lsLc lsTotal ps o) (initState d) =
      Callback.onLoadStart :: (List.replicate ps.length .onProgress ++
        match o with
        | .success status conv =>
            Callback.onLoad ::
              (if 200 ≤ status ∧ status < 300 then
                [match conv with | .ok _ => Callback.onLoadEnd | .err _ => Callback.onError]
              else [])
        | .failure => [Callback.onError]
        | .aborted => [Callback.onAbort]) :=
  emitted_lifecycle d lsLc lsTotal ps o

/-! ## C4 -/

theorem run_lifecycle (d : String) (lsLc : Bool) (lsTotal : ℚ)
    (ps : List (Bool × ℚ × ℚ)) (o : Outcome) :
    run (lifecycleEvents lsLc lsTotal ps o) (initState d) =
      run (finalEvents o)
        (run (ps.map fun p => Event.progressEvent p.1 p.2.1 p.2.2)
          (step (initState d) (.loadStart lsLc lsTotal))) := by
  show run (_ :: (_ ++ _)) _ = _
  rw [run_cons, run_append]

/-- C4 fails on the code: a transport completion with status 404 fires no
`onError` at all — `handleLoadEnd` silently returns `null` outside
[200, 300) and `handleError` only handles transport-level `error` events. -/
theorem C4_counterexample :
    (emitted (lifecycleEvents false 0 [] (.success 404 (.ok "payload")))
        (initState "d")).count Callback.onError = 0 := by
  rfl

/-- C4 (amended): when the transport completes carrying a 404 status,
`displayedImage` is unchanged and `isRequesting` becomes false (set by
`handleLoad` on the `load` event), but no `onError` and no `onLoadEnd` is
emitted: the non-2xx completion is a silent no-op. -/
theorem C4_status404_silent (d : String) (lsLc : Bool) (lsTotal : ℚ)
    (ps : List (Bool × ℚ × ℚ)) (conv : ConvResult) :
    (run (lifecycleEvents lsLc lsTotal ps (.success 404 conv)) (initState d)).image = d ∧
    (run (lifecycleEvents lsLc lsTotal ps (.success 404 conv)) (initState d)).isRequesting
        = false ∧
    Callback.onError ∉
      emitted (lifecycleEvents lsLc lsTotal ps (.success 404 conv)) (initState d) ∧
    Callback.onLoadEnd ∉
      emitted (lifecycleEvents lsLc lsTotal ps (.success 404 conv)) (initState d) := by
  have hfinal : ∀ s : ComponentState,
      run (finalEvents (.success 404 conv)) s = { s with isRequesting := false } := by
    intro s
    cases conv <;> simp [finalEvents, run, step, stepE]
  have hmem : ∀ c : Callback,
      c ∈ emitted (lifecycleEvents lsLc lsTotal ps (.success 404 conv)) (initState d) →
        c = .onLoadStart ∨ c = .onProgress ∨ c = .onLoad := by
    intro c hc
    rw [emitted_lifecycle] at hc
    simp only [List.mem_cons, List.mem_append, List.mem_replicate] at hc
    have h404 : ¬(200 ≤ 404 ∧ 404 < 300) := by norm_num
    rcases hc with hc | hc
    · exact Or.inl hc
    rcases hc with hc | hc
    · exact Or.inr (Or.inl hc.2)
    · simp only [if_neg h404] at hc
      rcases hc with hc | hc
      · exact Or.inr (Or.inr hc)
      · simp at hc
  refine ⟨?_, ?_, ?_, ?_⟩
  · rw [run_lifecycle, hfinal]
    show (run _ (step (initState d) _)).image = d
    rw [run_progressMap_image]
    simp [step, stepE, initState]
  · rw [run_lifecycle, hfinal]
  · intro hc
    rcases hmem _ hc with h | h | h <;> cases h
  · intro hc
    rcases hmem _ hc with h | h | h <;> cases h

/-! ## C5 -/

theorem step_image_none (s : ComponentState) (e : Event)
    (h : successPayload e = none) : (step s e).image = s.image := by
  cases e with
  | loadStart lc t => simp [step, stepE]
  | progressEvent lc l t => simp [step, stepE]
  | load => simp [step, stepE]
  | error => simp [step, stepE]
  | abortEvent => simp [step, stepE]
  | loadEnd status conv =>
      cases conv with
      | ok img =>
          simp only [successPayload] at h
          split at h
          · exact absurd h (by simp)
          · next hc => simp [step, stepE, hc]
      | err m =>
          by_cases hc : 200 ≤ status ∧ status < 300 <;> simp [step, stepE, hc]

theorem step_image_some (s : ComponentState) (e : Event) (img : String)
    (h : successPayload e = some img) : (step s e).image = img := by
  cases e with
  | loadStart lc t => simp [successPayload] at h
  | progressEvent lc l t => simp [successPayload] at h
  | load => simp [successPayload] at h
  | error => simp [successPayload] at h
  | abortEvent => simp [successPayload] at h
  | loadEnd status conv =>
      cases conv with
      | ok i =>
          simp only [successPayload] at h
          split at h
          · next hc =>
              cases h
              simp [step, stepE, hc]
          · exact absurd h (by simp)
      | err m => simp [successPayload] at h

theorem run_image_mem (es : List Event) (s : ComponentState) :
    (run es s).image ∈ s.image :: successfulPayloads es := by
  induction es generalizing s with
  | nil => simp [run, successfulPayloads]
  | cons e es ih =>
      rw [run_cons]
      cases hp : successPayload e with
      | none =>
          have h1 := ih (step s e)
          rw [step_image_none s e hp] at h1
          simpa [successfulPayloads, List.filterMap_cons, hp] using h1
      | some img =>
          have h1 := ih (step s e)
          rw [step_image_some s e img hp] at h1
          simp only [successfulPayloads, List.filterMap_cons, hp] at h1 ⊢
          simp only [List.mem_cons] at h1 ⊢
          tauto

/-- C5: in every reachable state, `state.image` is either the initial
`defaultSource` or the converted payload of a successful full transfer (a
`loadend` with 2xx status whose conversion succeeded), and a step whose event
carries no successful payload (partial progress, abort, transport error,
non-2xx completion, failed conversion) never changes `state.image`. -/
theorem C5_displayedImage_invariant (d : String) (es : List Event) :
    ((run es (initState d)).image = d ∨
      (run es (initState d)).image ∈ successfulPayloads es) ∧
    (∀ (s : ComponentState) (e : Event), successPayload e = none →
      (step s e).image = s.image) := by
  constructor
  · have h := run_image_mem es (initState d)
    simpa [initState, List.mem_cons] using h
  · exact fun s e h => step_image_none s e h

/-! ## C6 -/

theorem phase_inv (es : List Event) (p q : Phase) (s : ComponentState)
    (h : phaseRun es p = some q)
    (hs : (s.isRequesting = true) ↔ p = .active) :
    ((run es s).isRequesting = true) ↔ q = .active := by
  induction es generalizing p s with
  | nil =>
      simp only [phaseRun, Option.some.injEq] at h
      subst h
      simpa [run] using hs
  | cons e es ih =>
      rw [run_cons]
      cases hps : phaseStep p e with
      | none => simp [phaseRun, hps] at h
      | some r =>
          simp only [phaseRun, hps] at h
          apply ih _ _ h
          cases p with
          | idle =>
              cases e <;> simp only [phaseStep] at hps <;> cases hps
              simp [step, stepE]
          | active =>
              cases e <;> simp only [phaseStep] at hps <;> cases hps
              · simp [step, stepE, hs]
              · simp [step, stepE]
              · simp [step, stepE]
              · simp [step, stepE]
          | done =>
              cases e <;> simp only [phaseStep] at hps <;> cases hps
              rename_i status conv
              rcases conv with img | msg <;>
                by_cases hc : 200 ≤ status ∧ status < 300 <;>
                  simp [step, stepE, hc, hs]

/-- C6: over every well-formed XHR event sequence (the transfer's events in
transport order), `isRequesting` is true exactly when the sequence leaves the
transfer in its active phase — a request has started (`loadstart`) and none
of the terminal transport events (`load`, `error`, `abort`) has fired. -/
theorem C6_isRequesting_iff_active (d : String) (es : List Event) (p : Phase)
    (h : phaseRun es .idle = some p) :
    ((run es (initState d)).isRequesting = true) ↔ p = .active :=
  phase_inv es .idle p (initState d) h (by simp [initState])

/-- Witness for C6 on a concrete well-formed sequence: a full successful
transfer, after which the phase is idle and `isRequesting` is false. -/
theorem C6_isRequesting_iff_active_witness :
    ((run [Event.loadStart true 100, Event.progressEvent true 10 100, Event.load,
        Event.loadEnd 200 (.ok "img")] (initState "d")).isRequesting = true) ↔
      Phase.idle = Phase.active :=
  C6_isRequesting_iff_active "d"
    [Event.loadStart true 100, Event.progressEvent true 10 100, Event.load,
      Event.loadEnd 200 (.ok "img")] .idle rfl

/-! ## C7 -/

/-- C7 fails on the code: `handleLoadStart` does not reset `progress.total`
to the sentinel 1 — with a length-computable `loadstart` event carrying
`total = 100` it stores 100 there. -/
theorem C7_counterexample :
    (stepE (initState "d") (.loadStart true 100)).1.progress.total = 100 ∧
    (stepE (initState "d") (.loadStart true 100)).1.progress.total ≠ 1 := by
  norm_num [stepE, initState]

/-- C7 (amended): the start of a transfer sets `isRequesting` to true and
emits `onLoadStart`; when the `loadstart` event's length is computable it
sets progress to `{loaded: 0, total: event.total}`, otherwise it leaves
progress unchanged (`total = 1` is only the initial field value, never
re-established by `handleLoadStart`); the displayed image is untouched. -/
theorem C7_loadStart_effect (s : ComponentState) (lc : Bool) (t : ℚ) :
    (stepE s (.loadStart lc t)).1.isRequesting = true ∧
    (stepE s (.loadStart lc t)).1.progress =
      (if lc then { loaded := 0, total := t } else s.progress) ∧
    (stepE s (.loadStart lc t)).1.image = s.image ∧
    (stepE s (.loadStart lc t)).2 = [Callback.onLoadStart] := by
  cases lc <;> simp [stepE]

/-! ## C8 -/

/-- C8 fails on the code: `handleProgress` never writes `progress.total` —
with a length-computable progress event carrying `total = 100` the stored
total stays at its previous value 1. -/
theorem C8_counterexample :
    (stepE (initState "d") (.progressEvent true 10 100)).1.progress.total = 1 ∧
    (stepE (initState "d") (.progressEvent true 10 100)).1.progress.total ≠ 100 := by
  norm_num [stepE, initState]

/-- C8 (amended): a progress event updates `progress.loaded` only (and only
when `lengthComputable`), never `progress.total`, emits `onProgress`, and
changes neither the lifecycle flag `isRequesting` nor the displayed image. -/
theorem C8_progress_effect (s : ComponentState) (lc : Bool) (l t : ℚ) :
    (stepE s (.progressEvent lc l t)).1.progress.loaded =
      (if lc then l else s.progress.loaded) ∧
    (stepE s (.progressEvent lc l t)).1.progress.total = s.progress.total ∧
    (stepE s (.progressEvent lc l t)).1.image = s.image ∧
    (stepE s (.progressEvent lc l t)).1.isRequesting = s.isRequesting ∧
    (stepE s (.progressEvent lc l t)).2 = [Callback.onProgress] := by
  cases lc <;> simp [stepE]

/-! ## C9 -/

/-- C9 fails on the code: the intersection test is closed (`>=`) on the
bottom/right edges and open (`<`) on the top/left edges, so a rectangle whose
top edge sits exactly on the expanded boundary changes its answer under the
claimed reflection: with viewport 100×100 and offset 0, the rect
`{top: 100, left: 0, bottom: 200, right: 50}` is out of the viewport, but its
reflection `{top: -100, left: 50, bottom: 0, right: 100}` is in it. -/
theorem C9_counterexample :
    isInViewport { bottom := 200, height := 100, left := 0, right := 50, top := 100, width := 50 }
      100 100 0 = false ∧
    isInViewport
      (reflectRect
        { bottom := 200, height := 100, left := 0, right := 50, top := 100, width := 50 }
        100 100) 100 100 0 = true := by
  norm_num [isInViewport, reflectRect]

/-- C9 (amended): `isInViewport` is monotone in the offset (with
`O' ≥ O ≥ 0`, a true result stays true at the larger offset), and it is
invariant under simultaneous horizontal and vertical reflection of the
scenario whenever no edge of the rectangle lies exactly on the expanded
viewport boundary — on the boundary the mixed closed/open comparisons swap
and the symmetry can fail. -/
theorem C9_viewport_monotone_reflect :
    (∀ (r : Rect) (vw vh o o' : ℚ), 0 ≤ o → o ≤ o' →
      isInViewport r vw vh o = true → isInViewport r vw vh o' = true) ∧
    (∀ (r : Rect) (vw vh o : ℚ), r.bottom ≠ 0 - o → r.right ≠ 0 - o →
      r.top ≠ vh + o → r.left ≠ vw + o →
      isInViewport (reflectRect r vw vh) vw vh o = isInViewport r vw vh o) := by
  constructor
  · intro r vw vh o o' h0 hle h
    simp only [isInViewport, Bool.and_eq_true, decide_eq_true_eq] at h ⊢
    obtain ⟨⟨⟨h1, h2⟩, h3⟩, h4⟩ := h
    refine ⟨⟨⟨?_, ?_⟩, ?_⟩, ?_⟩ <;> linarith
  · intro r vw vh o hb hr ht hl
    have key : (isInViewport (reflectRect r vw vh) vw vh o = true) ↔
        (isInViewport r vw vh o = true) := by
      simp only [isInViewport, reflectRect, Bool.and_eq_true, decide_eq_true_eq]
      constructor
      · rintro ⟨⟨⟨a1, a2⟩, a3⟩, a4⟩
        refine ⟨⟨⟨?_, ?_⟩, ?_⟩, ?_⟩
        · linarith
        · linarith
        · rcases lt_or_eq_of_le (by linarith : r.top ≤ vh + o) with h' | h'
          · exact h'
          · exact absurd h' ht
        · rcases lt_or_eq_of_le (by linarith : r.left ≤ vw + o) with h' | h'
          · exact h'
          · exact absurd h' hl
      · rintro ⟨⟨⟨b1, b2⟩, b3⟩, b4⟩
        refine ⟨⟨⟨?_, ?_⟩, ?_⟩, ?_⟩
        · linarith
        · linarith
        · have hb' : 0 - o < r.bottom := lt_of_le_of_ne b1 (Ne.symm hb)
          linarith
        · have hr' : 0 - o < r.right := lt_of_le_of_ne b2 (Ne.symm hr)
          linarith
    cases h1 : isInViewport (reflectRect r vw vh) vw vh o <;>
      cases h2 : isInViewport r vw vh o <;> simp_all

/-! ## C10 -/

theorem jsIndexOf_nonneg_or (l : List String) (x : String) :
    jsIndexOf l x = -1 ∨ 0 ≤ jsIndexOf l x := by
  induction l with
  | nil => left; rfl
  | cons a l ih =>
      by_cases h : a = x
      · right; simp [jsIndexOf, h]
      · rcases ih with h1 | h1
        · left; simp [jsIndexOf, h, h1]
        · right
          simp only [jsIndexOf, if_neg h]
          split <;> omega

theorem jsIndexOf_eq_neg_one_iff (l : List String) (x : String) :
    jsIndexOf l x = -1 ↔ x ∉ l := by
  induction l with
  | nil => simp [jsIndexOf]
  | cons a l ih =>
      by_cases h : a = x
      · subst h
        simp [jsIndexOf]
      · have hxa : ¬ x = a := fun hx => h hx.symm
        simp only [jsIndexOf, if_neg h]
        rcases jsIndexOf_nonneg_or l x with h1 | h1
        · rw [if_pos h1]
          simpa [List.mem_cons, hxa] using ih.mp h1
        · have hne : jsIndexOf l x ≠ -1 := by omega
          rw [if_neg hne]
          have hx : x ∈ l := by
            by_contra hxl
            exact hne (ih.mpr hxl)
          constructor
          · intro he
            exact absurd he (by omega)
          · intro hno
            exact absurd (List.mem_cons_of_mem a hx) hno

/-- C10: the props forwarded to the rendered `img` element are exactly those
whose key is outside the fixed `ownProps` filter list (onLayout, onError,
onLoad, onLoadEnd, onLoadStart, onAbort, onProgress, resizeMode, source,
defaultSource, offset, minLoaded); in particular the recognized
configuration key `type` is not in that list, so a `type` entry is forwarded
verbatim. -/
theorem C10_imgProps_passthrough (props : List (String × String)) (k v : String) :
    ((k, v) ∈ imgProps props ↔ ((k, v) ∈ props ∧ k ∉ ownProps)) ∧
    "type" ∉ ownProps := by
  constructor
  · simp [imgProps, List.mem_filter, jsIndexOf_eq_neg_one_iff]
  · simp [ownProps]

end LazyImage
